import Mathlib

/-!
Verification of the `PersonalFinancialWallet` command-line ledger
(`src/core/app.py`) against its natural-language specification.

The Python program stores ledger records in an Excel sheet ("Main"): row 1
holds the six column headers `_columns`, rows 2.. hold one record each.
We shallowly embed:

* a spreadsheet cell as `Cell` (string, numeric, or empty — openpyxl / pandas
  represent an absent value as `None` / `NaN`, embedded as `Cell.empty`);
* the six schema columns as the enum `Col` (the Python dict keys are always
  drawn from `_columns`, so column names are embedded as this enum; the
  1-based worksheet column of each name, `{i[1]: i[0] for i in
  enumerate(self._columns, 1)}`, is `colIndex`);
* a loaded `pandas.DataFrame` as `List Row`, one `Row` per data row;
* the openpyxl worksheet as `Sheet`: its `max_row` and a cell grid addressed
  by 1-based (row, column);
* `print` calls of the dispatcher as structured `Printed` events and
  `raise SystemExit(code)` as an `Option Nat` exit code;
* fallible operations return `Except`.

Category strings are the program's literals `"Доход"` (income) and
`"Расход"` (expense). Amounts are embedded as `Int`.
-/

/-- A spreadsheet / dataframe cell value: a string, a number, or empty
(`None` in openpyxl, `NaN` in pandas). -/
inductive Cell where
  | s (v : String)
  | n (v : Int)
  | empty
deriving DecidableEq, Repr

/-- The six schema columns, `_columns = ['Category', 'Amount', 'Date',
'Description', 'Created at', 'Updated at']`. -/
inductive Col where
  | Category
  | Amount
  | Date
  | Description
  | CreatedAt
  | UpdatedAt
deriving DecidableEq, Repr, Fintype

/-- The 1-based worksheet column of each schema column:
`col_indexes = {i[1]: i[0] for i in enumerate(self._columns, 1)}`. -/
def colIndex : Col → Nat
  | .Category => 1
  | .Amount => 2
  | .Date => 3
  | .Description => 4
  | .CreatedAt => 5
  | .UpdatedAt => 6

/-- One data row of the loaded dataframe: the cell stored under each of the
six schema columns. -/
structure Row where
  category : Cell
  amount : Cell
  date : Cell
  description : Cell
  createdAt : Cell
  updatedAt : Cell
deriving DecidableEq, Repr

/-- Look up a row's cell by column name. -/
def Row.get (r : Row) : Col → Cell
  | .Category => r.category
  | .Amount => r.amount
  | .Date => r.date
  | .Description => r.description
  | .CreatedAt => r.createdAt
  | .UpdatedAt => r.updatedAt

/-- The conjunctive equality predicate built by `_filter_rows`:
`' & '.join([f'\x7bitem[0]\x7d == "\x7bitem[1]\x7d"' for item in conditions.items()])`.
A row satisfies the expression iff every condition's column holds exactly the
quoted string value (a `NaN`/numeric cell never equals a quoted string). -/
def rowMatches (r : Row) (conditions : List (Col × String)) : Bool :=
  conditions.all fun cv => r.get cv.1 == Cell.s cv.2

/-- The pandas error raised by `DataFrame.query('')`. -/
def emptyExprMsg : String := "expr cannot be an empty string"

/-- Embedding of `PersonalFinancialWallet._filter_rows(dataframe, conditions, inplace)`.

The Python builds `expr = ' & '.join(...)` over `conditions.items()` and runs
`dataframe.query(expr, inplace=inplace)`. With an empty condition dict the
joined expression is the empty string and `pandas.DataFrame.query` raises
`ValueError('expr cannot be an empty string')` (pandas checks the expression
before evaluating). Otherwise `query` keeps exactly the rows satisfying the
conjunction; with `inplace=True` it mutates the caller's dataframe and the
method returns `None`, with `inplace=False` it returns a new dataframe and
leaves the input untouched.

State-passing embedding: the result pair is (the method's return value,
the caller's dataframe after the call). -/
def filter_rows (dataframe : List Row) (conditions : List (Col × String))
    (inplace : Bool) : Except String (Option (List Row) × List Row) :=
  if conditions.isEmpty then .error emptyExprMsg
  else
    let result := dataframe.filter (rowMatches · conditions)
    if inplace then .ok (none, result) else .ok (some result, dataframe)

/-- The `Amount` contribution of a cell to a sum: `Series.sum()` skips `NaN`
(empty) cells, so they contribute `0`. -/
def cellAmount : Cell → Int
  | .n v => v
  | _ => 0

/-- Embedding of `rows.Amount.sum()`: the sum of the `Amount` column over a dataframe. -/
def amountSum (rows : List Row) : Int :=
  rows.foldr (fun r acc => cellAmount (r.get Col.Amount) + acc) 0

/-- Embedding of `PersonalFinancialWallet.count_balance(dataframe)`.

On an empty dataframe prints an error and raises `SystemExit(2)`
(embedded as `.error 2`). Otherwise filters the income rows
(`Category == 'Доход'`) and the expense rows (`Category == 'Расход'`),
sums each `Amount` column (`X.Amount.sum() if not X.empty else 0`) and
returns `(sub(income, outcome), income, outcome)`. The fallback branch is
unreachable (both condition dicts are non-empty); an exception escaping it
would abort the process with exit code 1. -/
def count_balance (dataframe : List Row) : Except Nat (Int × Int × Int) :=
  if dataframe.isEmpty then .error 2
  else
    match filter_rows dataframe [(Col.Category, "Доход")] false,
          filter_rows dataframe [(Col.Category, "Расход")] false with
    | .ok (some income_rows, _), .ok (some outcome_rows, _) =>
      let income := if income_rows.isEmpty then 0 else amountSum income_rows
      let outcome := if outcome_rows.isEmpty then 0 else amountSum outcome_rows
      .ok (income - outcome, income, outcome)
    | _, _ => .error 1

/-- A `print` event of the dispatcher, abstracted to its content. The source
has exactly two prints on the `balance` path: the insufficient-data error
message inside `count_balance` and the formatted `_balance_table`. `warning`
stands for any further diagnostic line a dispatcher might emit; no statement
in the `balance` branch of `start` constructs one. -/
inductive Printed where
  | insufficientData
  | balanceTable (balance income expense : Int)
  | warning (msg : String)
deriving DecidableEq, Repr

/-- Is a printed line a warning line? -/
def isWarningLine : Printed → Bool
  | .warning _ => true
  | _ => false

/-- The `balance` branch of `PersonalFinancialWallet.start`:
load the dataframe, then `print(self._balance_table % self.count_balance(dataframe))`.
Result: the list of printed lines and the process exit code
(`none` embeds the normal exit 0, `some c` embeds `SystemExit(c)`). -/
def start_balance (dataframe : List Row) : List Printed × Option Nat :=
  match count_balance dataframe with
  | .error c => ([.insufficientData], some c)
  | .ok (b, i, e) => ([.balanceTable b i e], none)

/-- The openpyxl worksheet "Main": `maxRow` is `sheet.max_row`, `cells r c`
the value of the cell at 1-based row `r` and column `c` (row 1 is the header
row; `Cell.empty` embeds an unset cell). -/
structure Sheet where
  maxRow : Nat
  cells : Nat → Nat → Cell

/-- Embedding of `sheet.cell(row=r, column=c).value = v`: writing a cell extends
`max_row` to at least `r`. -/
def setCell (sh : Sheet) (r c : Nat) (v : Cell) : Sheet where
  maxRow := max sh.maxRow r
  cells := fun r2 c2 => if r2 = r ∧ c2 = c then v else sh.cells r2 c2

/-- Target-row resolution of `_save_to_excel`:
`index = (sheet.max_row + 1) if index is None else (index + 2)`. -/
def resolveIndex (sh : Sheet) (index : Option Nat) : Nat :=
  match index with
  | none => sh.maxRow + 1
  | some i => i + 2

/-- Embedding of `PersonalFinancialWallet._save_to_excel(values, index)`.

Loads the workbook, resolves the target row with `resolveIndex`, then for
each `(col_name, value)` pair of the dict writes
`sheet.cell(row=index, column=col_indexes[col_name]).value = value`, and
saves. Dict iteration is insertion order, embedded as a left fold over the
association list. -/
def save_to_excel (sh : Sheet) (values : List (Col × Cell))
    (index : Option Nat) : Sheet :=
  let target := resolveIndex sh index
  values.foldl (fun acc cv => setCell acc target (colIndex cv.1) cv.2) sh

/-- Embedding of `PersonalFinancialWallet._load_dataframe_from_excel()`:
`pd.read_excel` reads data rows 2 .. `max_row` of the sheet into a
dataframe, one record per row, columns mapped by the header. -/
def load_dataframe_from_excel (sh : Sheet) : List Row :=
  (List.range (sh.maxRow - 1)).map fun i =>
    { category := sh.cells (i + 2) 1
      amount := sh.cells (i + 2) 2
      date := sh.cells (i + 2) 3
      description := sh.cells (i + 2) 4
      createdAt := sh.cells (i + 2) 5
      updatedAt := sh.cells (i + 2) 6 }

/-- Python dict item assignment `d[k] = v`: replaces the value of an existing
key in place, otherwise appends the pair at the end (insertion order). -/
def dictSet (d : List (Col × Cell)) (k : Col) (v : Cell) : List (Col × Cell) :=
  if (d.map Prod.fst).contains k then
    d.map fun kv => if kv.1 = k then (k, v) else kv
  else d ++ [(k, v)]

/-- Embedding of `PersonalFinancialWallet.add_record(col_values)`: stamps
`col_values['Created at'] = datetime.now()` (embedded as the opaque cell
`now`) and appends via `_save_to_excel` with no index. -/
def add_record (sh : Sheet) (col_values : List (Col × Cell)) (now : Cell) :
    Sheet :=
  save_to_excel sh (dictSet col_values Col.CreatedAt now) none

/-- Embedding of `PersonalFinancialWallet.modify_record(update_values, index)`: stamps
`update_values['Updated at'] = datetime.now()` (embedded as the opaque
cell `now`) and writes via `_save_to_excel` at the given index. -/
def modify_record (sh : Sheet) (update_values : List (Col × Cell))
    (index : Nat) (now : Cell) : Sheet :=
  save_to_excel sh (dictSet update_values Col.UpdatedAt now) (some index)

/-- The parsed CLI options relevant to `cli_args_to_dict`
(`argparse.Namespace` attributes `amount`, `category`, `date`,
`description`; `none` embeds `None`, absent option). -/
structure Args where
  amount : Option String
  category : Option String
  date : Option String
  description : Option String
deriving DecidableEq, Repr

/-- Embedding of `getattr(args, attr)` for the four option names iterated by
`cli_args_to_dict`; any other name has no attribute here. -/
def getattr (args : Args) : String → Option String
  | "amount" => args.amount
  | "category" => args.category
  | "date" => args.date
  | "description" => args.description
  | _ => none

/-- Python truthiness of an optional string: `None` and `''` are falsy,
any other string truthy. -/
def truthy : Option String → Bool
  | none => false
  | some v => v ≠ ""

/-- Embedding of `PersonalFinancialWallet.cli_args_to_dict(args)`: for each attribute in
`('amount', 'category', 'date', 'description')`, in order, insert
`result[attr.capitalize()] = getattr(args, attr)` when
`getattr(args, attr)` is truthy. Result keys use the Python string
`attr.capitalize()`. -/
def cli_args_to_dict (args : Args) : List (String × String) :=
  ["amount", "category", "date", "description"].foldl
    (fun result attr =>
      match getattr args attr with
      | some v => if v ≠ "" then result ++ [(attr.capitalize, v)] else result
      | none => result)
    []

/-! Sample data used by concrete witnesses. -/

/-- An income row: `Category = "Доход"`, `Amount = 100`. -/
def exRowIncome : Row :=
  { category := Cell.s "Доход", amount := Cell.n 100,
    date := Cell.empty, description := Cell.s "salary",
    createdAt := Cell.empty, updatedAt := Cell.empty }

/-- An expense row: `Category = "Расход"`, `Amount = 40`. -/
def exRowExpense : Row :=
  { category := Cell.s "Расход", amount := Cell.n 40,
    date := Cell.empty, description := Cell.empty,
    createdAt := Cell.empty, updatedAt := Cell.empty }

/-- A row whose category is neither allowed value. -/
def exRowOther : Row :=
  { category := Cell.s "Misc", amount := Cell.n 7,
    date := Cell.empty, description := Cell.empty,
    createdAt := Cell.empty, updatedAt := Cell.empty }

/-! Helper lemmas. -/

/-- Specification-side total: the sum of `Amount` over the rows whose
`Category` is `"Доход"` (income). Stated from the spec's words, to be
compared with what `count_balance` computes. -/
def incomeTotal (df : List Row) : Int :=
  amountSum (df.filter fun r => r.get Col.Category == Cell.s "Доход")

/-- Specification-side total: the sum of `Amount` over the rows whose
`Category` is `"Расход"` (expense). -/
def expenseTotal (df : List Row) : Int :=
  amountSum (df.filter fun r => r.get Col.Category == Cell.s "Расход")

/-- The income view built by `count_balance`:
`_filter_rows(dataframe, dict(Category='Доход'))` in copy mode. -/
def incomeRows (df : List Row) : List Row :=
  df.filter (rowMatches · [(Col.Category, "Доход")])

/-- The expense view built by `count_balance`:
`_filter_rows(dataframe, dict(Category='Расход'))` in copy mode. -/
def expenseRows (df : List Row) : List Row :=
  df.filter (rowMatches · [(Col.Category, "Расход")])

/-- The rows of a dataframe whose `Category` is one of the two allowed
values of `_categories`. -/
def allowedCategoryRows (df : List Row) : List Row :=
  df.filter fun r =>
    r.get Col.Category == Cell.s "Доход" || r.get Col.Category == Cell.s "Расход"

/-- A two-row example sheet: header row 1 plus one income record in row 2. -/
def exSheet : Sheet where
  maxRow := 2
  cells := fun r c =>
    if r = 2 ∧ c = 1 then Cell.s "Доход"
    else if r = 2 ∧ c = 2 then Cell.n 100
    else if r = 2 ∧ c = 4 then Cell.s "salary"
    else Cell.empty

/-- The record a dataframe load builds from worksheet row `q + 2` (the
record at 0-based table position `q`). -/
def sheetRow (sh : Sheet) (q : Nat) : Row where
  category := sh.cells (q + 2) 1
  amount := sh.cells (q + 2) 2
  date := sh.cells (q + 2) 3
  description := sh.cells (q + 2) 4
  createdAt := sh.cells (q + 2) 5
  updatedAt := sh.cells (q + 2) 6

/-- The contribution of one loop iteration of `cli_args_to_dict`: the
entries appended for one option (a singleton when the value is truthy,
nothing otherwise). -/
def entryIf (key : String) (o : Option String) : List (String × String) :=
  match o with
  | some v => if v ≠ "" then [(key, v)] else []
  | none => []

/-- With a non-empty condition dict `_filter_rows` never raises: copy mode
returns the matching rows and keeps the input, in-place mode retains the
matching rows and returns `None`. -/
theorem filter_rows_ok (df : List Row) (conds : List (Col × String))
    (h : conds ≠ []) :
    filter_rows df conds false = .ok (some (df.filter (rowMatches · conds)), df) ∧
    filter_rows df conds true = .ok (none, df.filter (rowMatches · conds)) := by
  cases conds with
  | nil => exact absurd rfl h
  | cons c cs => exact ⟨rfl, rfl⟩

/-- The sum guarded by the emptiness test equals the plain sum: an empty
dataframe's `Amount` column sums to `0` anyway. -/
theorem amountSum_ite (l : List Row) :
    (if l.isEmpty then 0 else amountSum l) = amountSum l := by
  cases l <;> simp [amountSum]

/-- A singleton condition dict matches a row iff that column holds the value. -/
theorem rowMatches_single (r : Row) (c : Col) (v : String) :
    rowMatches r [(c, v)] = (r.get c == Cell.s v) := by
  simp [rowMatches]

/-- C1: on a dataframe with zero rows `count_balance` raises
`SystemExit(2)` — the balance action prints the insufficient-data message
and the process exits with code 2 — and on any dataframe with at least one
row it does not fail this way (it returns a triple and exits normally). -/
theorem count_balance_empty_iff (df : List Row) :
    (count_balance df = .error 2 ↔ df = []) ∧
    ((start_balance df).2 = some 2 ↔ df = []) ∧
    ((start_balance df).1 = [.insufficientData] ↔ df = []) := by
  cases df with
  | nil =>
    refine ⟨by simp [count_balance], ?_, ?_⟩ <;> simp [start_balance, count_balance]
  | cons a t =>
    refine ⟨?_, ?_, ?_⟩ <;>
      simp [count_balance, filter_rows, start_balance, emptyExprMsg]

/-- C2: on every non-empty dataframe `count_balance` returns
`(income - expense, income, expense)` where `income` and `expense` are the
`Amount` sums of the rows categorized `"Доход"` and `"Расход"` respectively
(an empty filtered set summing to zero); in particular a dataframe with rows
but none in either category yields `(0, 0, 0)` without error. -/
theorem count_balance_formula (df : List Row) (h : df ≠ []) :
    count_balance df =
      .ok (incomeTotal df - expenseTotal df, incomeTotal df, expenseTotal df) ∧
    ((∀ r ∈ df, r.get Col.Category ≠ Cell.s "Доход" ∧
        r.get Col.Category ≠ Cell.s "Расход") →
      count_balance df = .ok (0, 0, 0)) := by
  have hne : df.isEmpty = false := by
    cases df with
    | nil => exact absurd rfl h
    | cons a t => rfl
  obtain ⟨hf1, -⟩ := filter_rows_ok df [(Col.Category, "Доход")] (by simp)
  obtain ⟨hf2, -⟩ := filter_rows_ok df [(Col.Category, "Расход")] (by simp)
  have hmain : count_balance df =
      .ok (incomeTotal df - expenseTotal df, incomeTotal df, expenseTotal df) := by
    unfold count_balance
    rw [hne]
    simp only [Bool.false_eq_true, if_false, hf1, hf2]
    simp only [incomeTotal, expenseTotal, rowMatches_single, amountSum_ite]
  refine ⟨hmain, fun hnone => ?_⟩
  have hinc : incomeTotal df = 0 := by
    have hfe : df.filter (fun r => r.get Col.Category == Cell.s "Доход") = [] := by
      simp only [List.filter_eq_nil_iff]
      intro r hr
      simpa using (hnone r hr).1
    simp [incomeTotal, hfe, amountSum]
  have hexp : expenseTotal df = 0 := by
    have hfe : df.filter (fun r => r.get Col.Category == Cell.s "Расход") = [] := by
      simp only [List.filter_eq_nil_iff]
      intro r hr
      simpa using (hnone r hr).2
    simp [expenseTotal, hfe, amountSum]
  rw [hmain, hinc, hexp]
  norm_num

/-- Concrete check of C2: one income row of 100 and one expense row of 40
give balance 60, income 100, expense 40. -/
theorem count_balance_formula_witness :
    count_balance [exRowIncome, exRowExpense] = .ok (60, 100, 40) := by
  have h := (count_balance_formula [exRowIncome, exRowExpense] (by simp)).1
  rw [h]
  rfl

/-- C4 counterexample: on a table whose expense (40) exceeds its income (0),
the successful balance action prints exactly one line — the formatted
balance table — and no warning line, contradicting the claim that an extra
warning line is printed exactly when expense > income. -/
theorem start_balance_warning_counterexample :
    count_balance [exRowExpense] = .ok (-40, 0, 40) ∧
    (start_balance [exRowExpense]).1 = [.balanceTable (-40) 0 40] ∧
    (start_balance [exRowExpense]).1.any isWarningLine = false ∧
    (start_balance [exRowExpense]).1.length = 1 :=
  ⟨rfl, rfl, rfl, rfl⟩

/-- C4 (amended): whenever the balance action succeeds, the dispatcher
prints exactly one line, the balance table, and never an extra warning
line — regardless of how expense compares to income. -/
theorem start_balance_single_line (df : List Row) (b i e : Int)
    (h : count_balance df = .ok (b, i, e)) :
    (start_balance df).1 = [.balanceTable b i e] ∧
    (start_balance df).1.any isWarningLine = false ∧
    (start_balance df).2 = none := by
  simp [start_balance, h, isWarningLine]

/-- Concrete check of the amended C4: with expense 40 over income 0 the
output is the single balance-table line. -/
theorem start_balance_single_line_witness :
    (start_balance [exRowExpense]).1 = [.balanceTable (-40) 0 40] ∧
    (start_balance [exRowExpense]).2 = none :=
  ⟨(start_balance_single_line [exRowExpense] (-40) 0 40 (by rfl)).1,
   (start_balance_single_line [exRowExpense] (-40) 0 40 (by rfl)).2.2⟩

/-- C5 counterexample: on a one-row table, `_filter_rows` with the empty
condition dict raises `ValueError('expr cannot be an empty string')` in both
modes (the joined query expression is empty), instead of returning or
retaining the full table. -/
theorem filter_rows_empty_map_counterexample :
    filter_rows [exRowIncome] [] false = .error emptyExprMsg ∧
    filter_rows [exRowIncome] [] true = .error emptyExprMsg ∧
    filter_rows [exRowIncome] [] false ≠
      .ok (some [exRowIncome], [exRowIncome]) :=
  ⟨rfl, rfl, fun h => Except.noConfusion h⟩

/-- C5 (amended): for every table and either mode, `_filter_rows` with the
empty condition dict fails with pandas' `ValueError` (the empty query
expression), rather than returning the table unchanged. -/
theorem filter_rows_empty_map (df : List Row) (inplace : Bool) :
    filter_rows df [] inplace = .error emptyExprMsg := rfl

/-- C6 counterexample: with the empty condition dict — which every row
satisfies vacuously, so the claim predicts the full table back — copy mode
raises instead of returning a table, and in-place mode raises instead of
retaining the rows. -/
theorem filter_rows_frame_counterexample :
    rowMatches exRowExpense [] = true ∧
    filter_rows [exRowExpense] [] false ≠
      .ok (some [exRowExpense], [exRowExpense]) ∧
    filter_rows [exRowExpense] [] true ≠ .ok (none, [exRowExpense]) :=
  ⟨rfl, fun h => Except.noConfusion h, fun h => Except.noConfusion h⟩

/-- C6 (amended): for every table and NON-empty condition dict: in-place
mode returns `None` and leaves the caller's dataframe holding exactly the
rows satisfying all conditions; copy mode returns exactly those rows as a
new dataframe and leaves the input unchanged. -/
theorem filter_rows_frame (df : List Row) (conds : List (Col × String))
    (h : conds ≠ []) :
    filter_rows df conds true = .ok (none, df.filter (rowMatches · conds)) ∧
    filter_rows df conds false =
      .ok (some (df.filter (rowMatches · conds)), df) ∧
    (∀ r, r ∈ df.filter (rowMatches · conds) ↔
      r ∈ df ∧ rowMatches r conds = true) := by
  obtain ⟨h1, h2⟩ := filter_rows_ok df conds h
  refine ⟨h2, h1, fun r => ?_⟩
  simp [List.mem_filter]

/-- Concrete check of the amended C6: filtering a two-row table in place on
`Category == "Расход"` retains exactly the expense row and returns `None`. -/
theorem filter_rows_frame_witness :
    filter_rows [exRowIncome, exRowExpense] [(Col.Category, "Расход")] true =
      .ok (none, [exRowExpense]) := by
  have h := (filter_rows_frame [exRowIncome, exRowExpense]
    [(Col.Category, "Расход")] (by simp)).1
  rw [h]
  rfl

/-- C7: the income filter and the expense filter of any dataframe are
disjoint, their concatenation is a permutation of exactly the rows whose
`Category` is an allowed value, and a row with any other category value
lands in neither filter. -/
theorem filter_category_partition (df : List Row) :
    filter_rows df [(Col.Category, "Доход")] false =
      .ok (some (incomeRows df), df) ∧
    filter_rows df [(Col.Category, "Расход")] false =
      .ok (some (expenseRows df), df) ∧
    (∀ r, r ∈ incomeRows df → r ∉ expenseRows df) ∧
    (incomeRows df ++ expenseRows df).Perm (allowedCategoryRows df) ∧
    (∀ r ∈ df, r.get Col.Category ≠ Cell.s "Доход" →
      r.get Col.Category ≠ Cell.s "Расход" →
      r ∉ incomeRows df ∧ r ∉ expenseRows df) := by
  refine ⟨(filter_rows_ok df _ (by simp)).1, (filter_rows_ok df _ (by simp)).1,
    ?_, ?_, ?_⟩
  · intro r hr hr2
    simp only [incomeRows, List.mem_filter, rowMatches_single, beq_iff_eq] at hr
    simp only [expenseRows, List.mem_filter, rowMatches_single, beq_iff_eq] at hr2
    rw [hr.2] at hr2
    exact absurd hr2.2 (by decide)
  · induction df with
    | nil => simp [incomeRows, expenseRows, allowedCategoryRows]
    | cons a t ih =>
      rcases Decidable.em (a.get Col.Category = Cell.s "Доход") with hI | hI
      · have hE : ¬a.get Col.Category = Cell.s "Расход" := by rw [hI]; decide
        have h1 : incomeRows (a :: t) = a :: incomeRows t := by
          simp [incomeRows, List.filter_cons, rowMatches_single, hI]
        have h2 : expenseRows (a :: t) = expenseRows t := by
          simp [expenseRows, List.filter_cons, rowMatches_single, hE]
        have h3 : allowedCategoryRows (a :: t) = a :: allowedCategoryRows t := by
          simp [allowedCategoryRows, List.filter_cons, hI]
        rw [h1, h2, h3, List.cons_append]
        exact ih.cons a
      · rcases Decidable.em (a.get Col.Category = Cell.s "Расход") with hE | hE
        · have h1 : incomeRows (a :: t) = incomeRows t := by
            simp [incomeRows, List.filter_cons, rowMatches_single, hI]
          have h2 : expenseRows (a :: t) = a :: expenseRows t := by
            simp [expenseRows, List.filter_cons, rowMatches_single, hE]
          have h3 : allowedCategoryRows (a :: t) = a :: allowedCategoryRows t := by
            simp [allowedCategoryRows, List.filter_cons, hE, hI]
          rw [h1, h2, h3]
          exact List.perm_middle.trans (ih.cons a)
        · have h1 : incomeRows (a :: t) = incomeRows t := by
            simp [incomeRows, List.filter_cons, rowMatches_single, hI]
          have h2 : expenseRows (a :: t) = expenseRows t := by
            simp [expenseRows, List.filter_cons, rowMatches_single, hE]
          have h3 : allowedCategoryRows (a :: t) = allowedCategoryRows t := by
            simp [allowedCategoryRows, List.filter_cons, hI, hE]
          rw [h1, h2, h3]
          exact ih
  · intro r hr hI hE
    constructor
    · intro hmem
      simp only [incomeRows, List.mem_filter, rowMatches_single, beq_iff_eq] at hmem
      exact hI hmem.2
    · intro hmem
      simp only [expenseRows, List.mem_filter, rowMatches_single, beq_iff_eq] at hmem
      exact hE hmem.2

/-- Concrete check of C7: on a three-row table with one income, one expense
and one oddly-categorized row, the income row is not in the expense view and
the odd row is in neither view. -/
theorem filter_category_partition_witness :
    exRowIncome ∉ expenseRows [exRowIncome, exRowExpense, exRowOther] ∧
    exRowOther ∉ incomeRows [exRowIncome, exRowExpense, exRowOther] ∧
    exRowOther ∉ expenseRows [exRowIncome, exRowExpense, exRowOther] := by
  obtain ⟨-, -, hdisj, -, hother⟩ :=
    filter_category_partition [exRowIncome, exRowExpense, exRowOther]
  have ho := hother exRowOther (by simp) (by decide) (by decide)
  exact ⟨hdisj exRowIncome (by decide), ho.1, ho.2⟩

/-- The column map of `_save_to_excel` is injective: distinct schema columns
occupy distinct worksheet columns. -/
theorem colIndex_inj : ∀ a b : Col, colIndex a = colIndex b → a = b := by decide

/-- Cells outside the target row are untouched by the write loop of
`_save_to_excel`. -/
theorem foldl_setCell_cells_ne (values : List (Col × Cell)) (sh : Sheet)
    (target r c : Nat) (h : r ≠ target) :
    (values.foldl (fun acc cv => setCell acc target (colIndex cv.1) cv.2)
      sh).cells r c = sh.cells r c := by
  induction values generalizing sh with
  | nil => rfl
  | cons x xs ih =>
    rw [List.foldl_cons, ih]
    have hcond : ¬(r = target ∧ c = colIndex x.1) := fun hc => h hc.1
    simp [setCell, hcond]

/-- Cells in a worksheet column that no written field maps to are untouched
by the write loop of `_save_to_excel`. -/
theorem foldl_setCell_cells_notin (values : List (Col × Cell)) (sh : Sheet)
    (target r c : Nat) (h : c ∉ values.map fun cv => colIndex cv.1) :
    (values.foldl (fun acc cv => setCell acc target (colIndex cv.1) cv.2)
      sh).cells r c = sh.cells r c := by
  induction values generalizing sh with
  | nil => rfl
  | cons x xs ih =>
    simp only [List.map_cons, List.mem_cons, not_or] at h
    rw [List.foldl_cons, ih _ h.2]
    have hcond : ¬(r = target ∧ c = colIndex x.1) := fun hc => h.1 hc.2
    simp [setCell, hcond]

/-- With distinct dict keys, the write loop of `_save_to_excel` leaves each
written field's value in its mapped cell of the target row. -/
theorem foldl_setCell_cells_written (values : List (Col × Cell)) (sh : Sheet)
    (target : Nat) (hnd : (values.map Prod.fst).Nodup)
    (cv : Col × Cell) (hmem : cv ∈ values) :
    (values.foldl (fun acc cv2 => setCell acc target (colIndex cv2.1) cv2.2)
      sh).cells target (colIndex cv.1) = cv.2 := by
  induction values generalizing sh with
  | nil => cases hmem
  | cons x xs ih =>
    simp only [List.map_cons, List.nodup_cons] at hnd
    rw [List.foldl_cons]
    rcases List.mem_cons.mp hmem with heq | hmem2
    · subst heq
      have hnotin : colIndex cv.1 ∉ xs.map fun kv => colIndex kv.1 := by
        intro hc
        obtain ⟨kv, hkv, hceq⟩ := List.mem_map.mp hc
        exact hnd.1 (colIndex_inj _ _ hceq ▸ List.mem_map_of_mem Prod.fst hkv)
      rw [foldl_setCell_cells_notin xs _ target target (colIndex cv.1) hnotin]
      simp [setCell]
    · exact ih _ hnd.2 hmem2

/-- The value of `max_row` after the write loop of `_save_to_excel`: unchanged when
nothing is written, otherwise extended to reach the target row. -/
theorem foldl_setCell_maxRow (values : List (Col × Cell)) (sh : Sheet)
    (target : Nat) :
    (values.foldl (fun acc cv => setCell acc target (colIndex cv.1) cv.2)
      sh).maxRow = if values.isEmpty then sh.maxRow else max sh.maxRow target := by
  induction values generalizing sh with
  | nil => rfl
  | cons x xs ih =>
    rw [List.foldl_cons, ih]
    cases xs with
    | nil => simp [setCell]
    | cons y ys => simp [setCell, max_assoc]

/-- C8: `_save_to_excel` resolves its target row as `lastRow + 1` when no
index is given (append) and as `index + 2` when a 0-based index is given
(positional update, skipping the header row); all writes land in that row —
every other row's cells are unchanged, and with distinct dict keys each
written field occupies its mapped column of the target row. -/
theorem save_to_excel_target_row (sh : Sheet) (values : List (Col × Cell))
    (i : Nat) :
    resolveIndex sh none = sh.maxRow + 1 ∧
    resolveIndex sh (some i) = i + 2 ∧
    (∀ r c, r ≠ sh.maxRow + 1 →
      (save_to_excel sh values none).cells r c = sh.cells r c) ∧
    (∀ r c, r ≠ i + 2 →
      (save_to_excel sh values (some i)).cells r c = sh.cells r c) ∧
    ((values.map Prod.fst).Nodup → ∀ cv ∈ values,
      (save_to_excel sh values none).cells (sh.maxRow + 1) (colIndex cv.1) = cv.2 ∧
      (save_to_excel sh values (some i)).cells (i + 2) (colIndex cv.1) = cv.2) := by
  refine ⟨rfl, rfl, ?_, ?_, ?_⟩
  · intro r c hr
    exact foldl_setCell_cells_ne values sh (sh.maxRow + 1) r c hr
  · intro r c hr
    exact foldl_setCell_cells_ne values sh (i + 2) r c hr
  · intro hnd cv hmem
    exact ⟨foldl_setCell_cells_written values sh (sh.maxRow + 1) hnd cv hmem,
      foldl_setCell_cells_written values sh (i + 2) hnd cv hmem⟩

/-- Concrete check of C8: on the example sheet (`max_row = 2`), a positional
update at index 0 writes `Amount` into row 2 and leaves row 3 untouched,
and an append writes `Amount` into row 3. -/
theorem save_to_excel_target_row_witness :
    (save_to_excel exSheet [(Col.Amount, Cell.n 200)] (some 0)).cells 2 2 =
      Cell.n 200 ∧
    (save_to_excel exSheet [(Col.Amount, Cell.n 200)] (some 0)).cells 3 1 =
      Cell.empty ∧
    (save_to_excel exSheet [(Col.Amount, Cell.n 200)] none).cells 3 2 =
      Cell.n 200 := by
  obtain ⟨-, -, -, hne_some, hw⟩ :=
    save_to_excel_target_row exSheet [(Col.Amount, Cell.n 200)] 0
  have h := hw (by simp) (Col.Amount, Cell.n 200) (by simp)
  refine ⟨h.2, ?_, h.1⟩
  rw [hne_some 3 1 (by decide)]
  rfl

/-- A loaded record's cell under a column is the sheet's cell in that
column's mapped position. -/
theorem sheetRow_get (sh : Sheet) (q : Nat) (c : Col) :
    (sheetRow sh q).get c = sh.cells (q + 2) (colIndex c) := by
  cases c <;> rfl

/-- The loaded table has one record per data row: position `q` (0-based)
comes from worksheet row `q + 2`. -/
theorem load_getElem (sh : Sheet) (q : Nat) (h : q < sh.maxRow - 1) :
    (load_dataframe_from_excel sh)[q]? = some (sheetRow sh q) := by
  unfold load_dataframe_from_excel
  rw [List.getElem?_map, List.getElem?_range h]
  rfl

/-- Positions at or beyond the data-row count are absent from the loaded
table. -/
theorem load_getElem_none (sh : Sheet) (q : Nat) (h : ¬q < sh.maxRow - 1) :
    (load_dataframe_from_excel sh)[q]? = none := by
  apply List.getElem?_eq_none
  simp only [load_dataframe_from_excel, List.length_map, List.length_range]
  omega

/-- C3: after `_save_to_excel` followed by `_load_dataframe_from_excel`,
the record at the resolved target position holds every explicitly written
value under its column, keeps the sheet's previously stored value under
every column not written, and every previously loaded record at any other
position is reloaded unchanged. -/
theorem save_load_roundtrip (sh : Sheet) (values : List (Col × Cell))
    (index : Option Nat) (hnd : (values.map Prod.fst).Nodup)
    (hne : values ≠ []) (hheader : 1 ≤ sh.maxRow) :
    ∃ r, (load_dataframe_from_excel
        (save_to_excel sh values index))[resolveIndex sh index - 2]? = some r ∧
      (∀ cv ∈ values, r.get cv.1 = cv.2) ∧
      (∀ c : Col, c ∉ values.map Prod.fst →
        r.get c = sh.cells (resolveIndex sh index) (colIndex c)) ∧
      (∀ q rq, (load_dataframe_from_excel sh)[q]? = some rq →
        q ≠ resolveIndex sh index - 2 →
        (load_dataframe_from_excel (save_to_excel sh values index))[q]? =
          some rq) := by
  have hvne : values.isEmpty = false := by
    cases values with
    | nil => exact absurd rfl hne
    | cons a t => rfl
  have htarget2 : 2 ≤ resolveIndex sh index := by
    cases index with
    | none => simp only [resolveIndex]; omega
    | some i => simp only [resolveIndex]; omega
  have hunf : save_to_excel sh values index =
      values.foldl (fun acc cv =>
        setCell acc (resolveIndex sh index) (colIndex cv.1) cv.2) sh := rfl
  have hmax : (save_to_excel sh values index).maxRow =
      max sh.maxRow (resolveIndex sh index) := by
    rw [hunf, foldl_setCell_maxRow, hvne]
    simp
  have hle1 : sh.maxRow ≤ (save_to_excel sh values index).maxRow := by
    rw [hmax]; exact le_max_left _ _
  have hle2 : resolveIndex sh index ≤ (save_to_excel sh values index).maxRow := by
    rw [hmax]; exact le_max_right _ _
  have hp : resolveIndex sh index - 2 < (save_to_excel sh values index).maxRow - 1 := by
    omega
  have hp2 : resolveIndex sh index - 2 + 2 = resolveIndex sh index := by omega
  refine ⟨sheetRow (save_to_excel sh values index) (resolveIndex sh index - 2),
    load_getElem _ _ hp, ?_, ?_, ?_⟩
  · intro cv hmem
    rw [sheetRow_get, hp2, hunf]
    exact foldl_setCell_cells_written values sh (resolveIndex sh index) hnd cv hmem
  · intro c hc
    rw [sheetRow_get, hp2, hunf]
    have hnotin : colIndex c ∉ values.map fun kv => colIndex kv.1 := by
      intro hmem
      obtain ⟨kv, hkv, hceq⟩ := List.mem_map.mp hmem
      exact hc (colIndex_inj _ _ hceq ▸ List.mem_map_of_mem Prod.fst hkv)
    exact foldl_setCell_cells_notin values sh (resolveIndex sh index)
      (resolveIndex sh index) (colIndex c) hnotin
  · intro q rq hq hqne
    have hqlt : q < sh.maxRow - 1 := by
      by_contra hcon
      rw [load_getElem_none sh q hcon] at hq
      exact Option.noConfusion hq
    have hq2 : q < (save_to_excel sh values index).maxRow - 1 := by omega
    rw [load_getElem sh q hqlt] at hq
    injection hq with hq
    subst hq
    rw [load_getElem _ q hq2]
    have hrow : q + 2 ≠ resolveIndex sh index := by omega
    have hcells : ∀ c, (save_to_excel sh values index).cells (q + 2) c =
        sh.cells (q + 2) c := by
      intro c
      rw [hunf]
      exact foldl_setCell_cells_ne values sh (resolveIndex sh index) (q + 2) c hrow
    unfold sheetRow
    simp only [hcells]

/-- Concrete check of C3: updating position 0 of the example sheet with
`Amount = 200` yields a reloaded record with the new `Amount` and the
previously stored `Category` intact. -/
theorem save_load_roundtrip_witness :
    ((load_dataframe_from_excel (save_to_excel exSheet
        [(Col.Amount, Cell.n 200)] (some 0)))[0]?).map (fun r => r.get Col.Amount) =
      some (Cell.n 200) ∧
    ((load_dataframe_from_excel (save_to_excel exSheet
        [(Col.Amount, Cell.n 200)] (some 0)))[0]?).map (fun r => r.get Col.Category) =
      some (Cell.s "Доход") := by
  obtain ⟨r, hr, hw, hu, -⟩ := save_load_roundtrip exSheet
    [(Col.Amount, Cell.n 200)] (some 0) (by simp) (by simp) (by decide)
  rw [show resolveIndex exSheet (some 0) - 2 = 0 from rfl] at hr
  refine ⟨?_, ?_⟩ <;> rw [hr]
  · show some (r.get Col.Amount) = some (Cell.n 200)
    rw [hw (Col.Amount, Cell.n 200) (by simp)]
  · show some (r.get Col.Category) = some (Cell.s "Доход")
    rw [hu Col.Category (by simp)]
    rfl

/-- C10: `modify_record` with a 0-based index at or beyond the number of
data rows (`max_row - 1`) is not rejected: the `Updated at` stamp and every
supplied field value are written into worksheet row `index + 2`, a row
strictly beyond the current last row, and `max_row` jumps to `index + 2` —
silently creating a new, possibly non-adjacent, row. -/
theorem modify_record_out_of_range (sh : Sheet)
    (update_values : List (Col × Cell)) (i : Nat) (now : Cell)
    (hnd : (update_values.map Prod.fst).Nodup)
    (hupd : Col.UpdatedAt ∉ update_values.map Prod.fst)
    (hheader : 1 ≤ sh.maxRow) (hi : sh.maxRow - 1 ≤ i) :
    sh.maxRow < i + 2 ∧
    (∀ cv ∈ update_values,
      (modify_record sh update_values i now).cells (i + 2) (colIndex cv.1) =
        cv.2) ∧
    (modify_record sh update_values i now).cells (i + 2)
      (colIndex Col.UpdatedAt) = now ∧
    (modify_record sh update_values i now).maxRow = i + 2 := by
  have hdict : dictSet update_values Col.UpdatedAt now =
      update_values ++ [(Col.UpdatedAt, now)] := by
    unfold dictSet
    rw [if_neg]
    intro hcon
    exact hupd (by simpa using hcon)
  have hnd2 : ((update_values ++ [(Col.UpdatedAt, now)]).map Prod.fst).Nodup := by
    simp only [List.map_append, List.map_cons, List.map_nil]
    rw [List.nodup_append]
    exact ⟨hnd, List.nodup_singleton _, by simpa using hupd⟩
  have hlt : sh.maxRow < i + 2 := by omega
  have hunf : modify_record sh update_values i now =
      (update_values ++ [(Col.UpdatedAt, now)]).foldl
        (fun acc cv => setCell acc (i + 2) (colIndex cv.1) cv.2) sh := by
    show save_to_excel sh (dictSet update_values Col.UpdatedAt now) (some i) = _
    rw [hdict]
    rfl
  refine ⟨hlt, ?_, ?_, ?_⟩
  · intro cv hmem
    rw [hunf]
    exact foldl_setCell_cells_written _ sh (i + 2) hnd2 cv
      (List.mem_append_left _ hmem)
  · rw [hunf]
    exact foldl_setCell_cells_written _ sh (i + 2) hnd2 (Col.UpdatedAt, now)
      (List.mem_append_right _ (List.mem_singleton.mpr rfl))
  · rw [hunf, foldl_setCell_maxRow]
    have hne2 : (update_values ++ [(Col.UpdatedAt, now)]).isEmpty = false := by
      simp
    rw [hne2]
    simp only [Bool.false_eq_true, if_false]
    exact max_eq_right hlt.le

/-- Concrete check of C10: the example sheet has one data row, yet
`modify_record` at index 5 succeeds, writing `Amount` into row 7 and
extending `max_row` from 2 to 7. -/
theorem modify_record_out_of_range_witness :
    (modify_record exSheet [(Col.Amount, Cell.n 7)] 5 (Cell.s "ts")).cells 7 2 =
      Cell.n 7 ∧
    (modify_record exSheet [(Col.Amount, Cell.n 7)] 5 (Cell.s "ts")).maxRow = 7 ∧
    exSheet.maxRow < 7 := by
  obtain ⟨hlt, hw, -, hm⟩ := modify_record_out_of_range exSheet
    [(Col.Amount, Cell.n 7)] 5 (Cell.s "ts") (by simp) (by simp) (by decide)
    (by decide)
  exact ⟨hw (Col.Amount, Cell.n 7) (by simp), hm, hlt⟩

/-- Python `'amount'.capitalize()` is the column name `'Amount'`. -/
theorem capitalize_amount : "amount".capitalize = "Amount" := rfl

/-- Python `'category'.capitalize()` is the column name `'Category'`. -/
theorem capitalize_category : "category".capitalize = "Category" := rfl

/-- Python `'date'.capitalize()` is the column name `'Date'`. -/
theorem capitalize_date : "date".capitalize = "Date" := rfl

/-- Python `'description'.capitalize()` is the column name `'Description'`. -/
theorem capitalize_description : "description".capitalize = "Description" := rfl

/-- Closed form of `cli_args_to_dict`: the four iterations' contributions
in order. -/
theorem cli_args_to_dict_eq (a c d e : Option String) :
    cli_args_to_dict ⟨a, c, d, e⟩ =
      entryIf "Amount" a ++ entryIf "Category" c ++
      entryIf "Date" d ++ entryIf "Description" e := by
  simp only [cli_args_to_dict, getattr, List.foldl_cons, List.foldl_nil,
    capitalize_amount, capitalize_category, capitalize_date,
    capitalize_description]
  cases a <;> cases c <;> cases d <;> cases e <;>
    simp only [entryIf] <;> first | (split_ifs <;> simp) | simp

/-- Looking up an iteration's own key finds the value exactly when it is
truthy. -/
theorem lookup_entryIf_self (key : String) (o : Option String) :
    (entryIf key o).lookup key = if truthy o then o else none := by
  cases o with
  | none => rfl
  | some v =>
    rcases Decidable.em (v = "") with hv | hv <;> simp [entryIf, truthy, hv]

/-- Looking up any other key in an iteration's contribution finds nothing. -/
theorem lookup_entryIf_ne (key key2 : String) (o : Option String)
    (h : key2 ≠ key) : (entryIf key o).lookup key2 = none := by
  cases o with
  | none => rfl
  | some v =>
    have hb : (key2 == key) = false := beq_eq_false_iff_ne.mpr h
    rcases Decidable.em (v = "") with hv | hv <;>
      simp [entryIf, hv, List.lookup_cons, hb]

/-- An iteration contributes at most its own key. -/
theorem entryIf_keys (key : String) (o : Option String) :
    ((entryIf key o).map Prod.fst).Sublist [key] := by
  cases o with
  | none => simp [entryIf]
  | some v =>
    rcases Decidable.em (v = "") with hv | hv <;> simp [entryIf, hv]

/-- C9: `cli_args_to_dict` is a pure transform of the parsed arguments. For
each of the four option names, the dict holds the option's value under the
capitalized column name exactly when the CLI supplied a non-empty (truthy)
value — an absent or empty option yields no key — and no key beyond the four
capitalized names ever appears. -/
theorem cli_args_to_dict_pure (args : Args) :
    (cli_args_to_dict args).lookup "Amount" =
      (if truthy args.amount then args.amount else none) ∧
    (cli_args_to_dict args).lookup "Category" =
      (if truthy args.category then args.category else none) ∧
    (cli_args_to_dict args).lookup "Date" =
      (if truthy args.date then args.date else none) ∧
    (cli_args_to_dict args).lookup "Description" =
      (if truthy args.description then args.description else none) ∧
    ((cli_args_to_dict args).map Prod.fst).Sublist
      ["Amount", "Category", "Date", "Description"] := by
  obtain ⟨a, c, d, e⟩ := args
  rw [cli_args_to_dict_eq]
  refine ⟨?_, ?_, ?_, ?_, ?_⟩
  · simp only [List.lookup_append, lookup_entryIf_self,
      lookup_entryIf_ne "Category" "Amount" c (by decide),
      lookup_entryIf_ne "Date" "Amount" d (by decide),
      lookup_entryIf_ne "Description" "Amount" e (by decide)]
    cases truthy a <;> simp
  · simp only [List.lookup_append, lookup_entryIf_self,
      lookup_entryIf_ne "Amount" "Category" a (by decide),
      lookup_entryIf_ne "Date" "Category" d (by decide),
      lookup_entryIf_ne "Description" "Category" e (by decide)]
    cases truthy c <;> simp
  · simp only [List.lookup_append, lookup_entryIf_self,
      lookup_entryIf_ne "Amount" "Date" a (by decide),
      lookup_entryIf_ne "Category" "Date" c (by decide),
      lookup_entryIf_ne "Description" "Date" e (by decide)]
    cases truthy d <;> simp
  · simp only [List.lookup_append, lookup_entryIf_self,
      lookup_entryIf_ne "Amount" "Description" a (by decide),
      lookup_entryIf_ne "Category" "Description" c (by decide),
      lookup_entryIf_ne "Date" "Description" d (by decide)]
    cases truthy e <;> simp
  · have h := ((entryIf_keys "Amount" a).append
      ((entryIf_keys "Category" c).append
        ((entryIf_keys "Date" d).append (entryIf_keys "Description" e))))
    simpa [List.append_assoc] using h
